import Mathlib

/-!
Verification of the SQDToolz instrument drivers.

The interesting code is the segmented sweep acquisition routine
`Keysight_N9323C.get_data` in `Drivers/SA_Keysight_N9323C.py`: it splits a
wide frequency window into sub-sweeps of at most 5e8 Hz, acquires each
sub-sweep with the caller's averaging settings re-applied and restarted, and
stitches the per-segment 461-point traces into one trace.  We embed the
routine shallowly: instrument reads become explicit inputs, instrument writes
become an explicit command trace, the fallible per-segment trace read becomes
a function `ℕ → Option (List ℚ)`, and real arithmetic becomes exact `ℚ`
arithmetic.  The `SweepPoints` property of the same driver and the ramp-rate
properties of `Drivers/SMU_Siglent_SPD4306X.py` are embedded alongside.
-/

/-- Commands `get_data` issues to the instrument, in issue order.
`triggerWait` is the blocking query `*CLS;INIT:IMM;*OPC?`; `readTrace` is
the trace-data query; the rest are plain SCPI writes. -/
inductive Cmd where
  | setStart (f : ℚ)
  | setStop (f : ℚ)
  | contOff
  | triggerWait
  | setAvgState (b : Bool)
  | setAvgCount (n : ℤ)
  | avgClear
  | readTrace
  | contOn
  deriving DecidableEq, Repr

/-- The per-segment span cap: 5e8 Hz (max span with 461 points). -/
def maxSegmentSpan : ℚ := 500000000

/-- `num_segments = int(np.ceil(span / 5e8))` in the source; for positive
spans this is the positive ceiling, and a non-positive span yields 0
(`Rat.ceil` is the executable ceiling; `num_segments_eq_ceil` below relates
it to the mathematical one). -/
def num_segments (span : ℚ) : ℕ := (span / maxSegmentSpan).ceil.toNat

/-- `seg_start = start_freq + seg * 5e8`. -/
def seg_start (start_freq : ℚ) (seg : ℕ) : ℚ :=
  start_freq + seg * maxSegmentSpan

/-- `seg_stop = min(seg_start + 5e8, stop_freq)`. -/
def seg_stop (start_freq stop_freq : ℚ) (seg : ℕ) : ℚ :=
  min (seg_start start_freq seg + maxSegmentSpan) stop_freq

/-- `np.linspace(a, b, 461)`: 461 evenly spaced points from `a` to `b`
inclusive. -/
def linspace (a b : ℚ) : List ℚ :=
  (List.range 461).map (fun k : ℕ => a + (b - a) * (k : ℚ) / 460)

/-- The stitched frequency axis `wfm_x`: the per-segment linspaces
concatenated in segment order. -/
def wfm_x (span start_freq stop_freq : ℚ) : List ℚ :=
  ((List.range (num_segments span)).map
    (fun seg => linspace (seg_start start_freq seg)
                         (seg_stop start_freq stop_freq seg))).flatten

/-- The commands the per-segment loop body issues, in source order:
window start, window stop, `INIT:CONT OFF`, the blocking
`*CLS;INIT:IMM;*OPC?` query, re-apply averaging state, re-apply averaging
count, `:AVERage:TRACe1:CLEar`, then the trace read. -/
def segCmds (start_freq stop_freq : ℚ) (average_state : Bool)
    (average_count : ℤ) (seg : ℕ) : List Cmd :=
  [Cmd.setStart (seg_start start_freq seg),
   Cmd.setStop (seg_stop start_freq stop_freq seg),
   Cmd.contOff,
   Cmd.triggerWait,
   Cmd.setAvgState average_state,
   Cmd.setAvgCount average_count,
   Cmd.avgClear,
   Cmd.readTrace]

/-- The acquisition loop over a list of segment indices.  `readSeg` models
the fallible `query_ascii_values` read of a segment's trace; a failing read
raises in the source, so here it aborts the loop with `none`, keeping the
commands issued so far (the failing segment's commands were already sent). -/
def runSegs (start_freq stop_freq : ℚ) (average_state : Bool)
    (average_count : ℤ) (readSeg : ℕ → Option (List ℚ)) :
    List ℕ → Option (List ℚ) × List Cmd
  | [] => (some [], [])
  | seg :: rest =>
    match readSeg seg with
    | none => (none, segCmds start_freq stop_freq average_state average_count seg)
    | some seg_data =>
      let tail := runSegs start_freq stop_freq average_state average_count
        readSeg rest
      (tail.1.map (fun d => seg_data ++ d),
       segCmds start_freq stop_freq average_state average_count seg ++ tail.2)

/-- `Keysight_N9323C.get_data`.  Inputs are the instrument queries the
source makes up front (`span`, `start_freq`, `stop_freq`, the averaging
state and count) and the per-segment trace read.  Returns the stitched
(frequency axis, amplitude data) on success, `none` when a segment read
raises, paired with the full command trace.  On success the source restores
`FREQ:STAR wfm_x[0]`, `FREQ:STOP wfm_x[-1]` and re-enables continuous
sweeping; if a segment read raises, the exception propagates and none of
the restoration commands are issued. -/
def get_data (span start_freq stop_freq : ℚ) (average_state : Bool)
    (average_count : ℤ) (readSeg : ℕ → Option (List ℚ)) :
    Option (List ℚ × List ℚ) × List Cmd :=
  let x := wfm_x span start_freq stop_freq
  match runSegs start_freq stop_freq average_state average_count readSeg
      (List.range (num_segments span)) with
  | (none, cmds) => (none, cmds)
  | (some wfm_data, cmds) =>
    (some (x, wfm_data),
     cmds ++ [Cmd.setStart (x.headD 0), Cmd.setStop (x.getLastD 0), Cmd.contOn])

/-- `Keysight_N9323C.SweepPoints` getter: returns the constant 461,
issuing no instrument command. -/
def SweepPoints_get : ℕ × List Cmd := (461, [])

/-- `Keysight_N9323C.SweepPoints` setter: raises `NotImplementedError`
before issuing any command, for every value. -/
def SweepPoints_set (_val : ℤ) : Except String (List Cmd) :=
  Except.error "Sweep points is fixed to 461 in this model."

/-- A qcodes parameter's ramp-relevant state: software step size and
inter-step delay. -/
structure ParamRamp where
  step : ℚ
  inter_delay : ℚ
  deriving DecidableEq, Repr

/-- One channel of the Siglent SPD4306X: the `voltage` and `current`
parameters' ramp state. -/
structure SiglentChannel where
  voltage : ParamRamp
  current : ParamRamp
  deriving DecidableEq, Repr

/-- `RampRateVoltage` getter: `voltage.step / voltage.inter_delay`. -/
def RampRateVoltage_get (ch : SiglentChannel) : ℚ :=
  ch.voltage.step / ch.voltage.inter_delay

/-- `RampRateVoltage` setter: threshold the requested rate into a step of
0.001, 0.010, 0.100 or 1.0, then set `inter_delay = step / ramp_rate`. -/
def RampRateVoltage_set (ch : SiglentChannel) (val : ℚ) : SiglentChannel :=
  let ramp_rate := val
  let step : ℚ :=
    if ramp_rate < 1/100 then 1/1000
    else if ramp_rate < 1/10 then 1/100
    else if ramp_rate < 1 then 1/10
    else 1
  { ch with voltage := { step := step, inter_delay := step / ramp_rate } }

/-- `RampRateCurrent` getter: `current.step / current.inter_delay`. -/
def RampRateCurrent_get (ch : SiglentChannel) : ℚ :=
  ch.current.step / ch.current.inter_delay

/-- `RampRateCurrent` setter: same thresholding on the `current`
parameter. -/
def RampRateCurrent_set (ch : SiglentChannel) (val : ℚ) : SiglentChannel :=
  let ramp_rate := val
  let step : ℚ :=
    if ramp_rate < 1/100 then 1/1000
    else if ramp_rate < 1/10 then 1/100
    else if ramp_rate < 1 then 1/10
    else 1
  { ch with current := { step := step, inter_delay := step / ramp_rate } }

/-- The executable `Rat.ceil` bounds an integer the same way the
mathematical ceiling does. -/
lemma rat_ceil_le_iff (q : ℚ) (z : ℤ) : q.ceil ≤ z ↔ q ≤ (z : ℚ) := by
  unfold Rat.ceil
  split
  · rename_i h
    rw [show q = (q.num : ℚ) by rw [← Rat.num_div_den q, h]; simp]
    simp
  · rename_i h
    rw [show q.num / (q.den : ℤ) = ⌊q⌋ from (Rat.floor_def).symm,
        Int.add_one_le_iff, Int.floor_lt]
    constructor
    · exact le_of_lt
    · intro hle
      refine lt_of_le_of_ne hle (fun he => h ?_)
      rw [he]
      simp

/-- The executable `Rat.ceil` agrees with the mathematical ceiling. -/
lemma rat_ceil_eq (q : ℚ) : q.ceil = ⌈q⌉ :=
  le_antisymm ((rat_ceil_le_iff q ⌈q⌉).mpr (Int.le_ceil q))
    (Int.ceil_le.mpr ((rat_ceil_le_iff q q.ceil).mp le_rfl))

/-- `num_segments` is the natural ceiling of `span / maxSegmentSpan`. -/
lemma num_segments_eq_ceil (span : ℚ) :
    num_segments span = ⌈span / maxSegmentSpan⌉₊ := by
  rw [num_segments, rat_ceil_eq, Int.ceil_toNat]


/-- Each segment axis has exactly 461 points. -/
lemma linspace_length (a b : ℚ) : (linspace a b).length = 461 := by
  unfold linspace
  rw [List.length_map, List.length_range]

lemma maxSegmentSpan_pos : (0 : ℚ) < maxSegmentSpan := by norm_num [maxSegmentSpan]

/-- A positive span yields at least one segment. -/
lemma num_segments_pos {span : ℚ} (h : 0 < span) : 0 < num_segments span := by
  rw [num_segments_eq_ceil]
  exact Nat.ceil_pos.mpr (div_pos h maxSegmentSpan_pos)

/-- The segments are wide enough to reach the requested span. -/
lemma span_le_segments (span : ℚ) :
    span ≤ num_segments span * maxSegmentSpan := by
  rw [num_segments_eq_ceil, ← div_le_iff₀ maxSegmentSpan_pos]
  exact Nat.le_ceil _

/-- Every segment index strictly below `num_segments` starts strictly
inside the requested span. -/
lemma seg_lt_span {span : ℚ} (h : 0 < span) {i : ℕ}
    (hi : i < num_segments span) :
    (i : ℚ) * maxSegmentSpan < span := by
  rw [← lt_div_iff₀ maxSegmentSpan_pos]
  have hq : (0 : ℚ) ≤ span / maxSegmentSpan :=
    le_of_lt (div_pos h maxSegmentSpan_pos)
  have hceil : (num_segments span : ℚ) < span / maxSegmentSpan + 1 := by
    rw [num_segments_eq_ceil]
    exact Nat.ceil_lt_add_one hq
  have : (i : ℚ) + 1 ≤ (num_segments span : ℚ) := by
    exact_mod_cast Nat.succ_le_of_lt hi
  linarith

/-- Every segment starts strictly before the stop frequency. -/
lemma seg_start_lt_stop {span start_freq stop_freq : ℚ}
    (hspan : span = stop_freq - start_freq) (h : 0 < span) {i : ℕ}
    (hi : i < num_segments span) :
    seg_start start_freq i < stop_freq := by
  have := seg_lt_span h hi
  rw [seg_start]
  linarith [hspan ▸ this]

/-- Every segment window is (weakly) ordered. -/
lemma seg_start_le_stop {span start_freq stop_freq : ℚ}
    (hspan : span = stop_freq - start_freq) (h : 0 < span) {i : ℕ}
    (hi : i < num_segments span) :
    seg_start start_freq i ≤ seg_stop start_freq stop_freq i := by
  rw [seg_stop]
  refine le_min (by linarith [maxSegmentSpan_pos]) ?_
  exact le_of_lt (seg_start_lt_stop hspan h hi)

/-- Adjacent segment windows are contiguous: each non-final segment stops
exactly where the next one starts. -/
lemma seg_stop_eq_next_start {span start_freq stop_freq : ℚ}
    (hspan : span = stop_freq - start_freq) (h : 0 < span) {i : ℕ}
    (hi : i + 1 < num_segments span) :
    seg_stop start_freq stop_freq i = seg_start start_freq (i + 1) := by
  have hlt : ((i + 1 : ℕ) : ℚ) * maxSegmentSpan < span := seg_lt_span h hi
  rw [seg_stop, seg_start, seg_start, min_eq_left (by push_cast at hlt ⊢; linarith)]
  push_cast
  ring

/-- The final segment stops exactly at the stop frequency. -/
lemma seg_stop_last {span start_freq stop_freq : ℚ}
    (hspan : span = stop_freq - start_freq) (h : 0 < span) :
    seg_stop start_freq stop_freq (num_segments span - 1) = stop_freq := by
  have hn := num_segments_pos h
  have hle := span_le_segments span
  rw [seg_stop, seg_start, min_eq_right ?_]
  have : ((num_segments span - 1 : ℕ) : ℚ) = (num_segments span : ℚ) - 1 := by
    have : (1 : ℕ) ≤ num_segments span := hn
    push_cast [Nat.cast_sub this]
    ring
  rw [this]
  linarith

/-- First point of a segment's frequency axis. -/
lemma linspace_head (a b : ℚ) : (linspace a b).head? = some a := by
  unfold linspace
  rw [show (461 : ℕ) = 460 + 1 from rfl, List.range_succ_eq_map]
  simp

/-- Last point of a segment's frequency axis. -/
lemma linspace_getLast (a b : ℚ) : (linspace a b).getLast? = some b := by
  unfold linspace
  rw [show (461 : ℕ) = 460 + 1 from rfl, List.range_succ, List.map_append,
      List.map_cons, List.map_nil, List.getLast?_concat]
  norm_num

lemma linspace_ne_nil (a b : ℚ) : linspace a b ≠ [] := by
  intro h
  have := linspace_length a b
  rw [h] at this
  simp at this

/-- A segment's frequency axis is non-decreasing when the window is
ordered. -/
lemma linspace_chain' {a b : ℚ} (h : a ≤ b) :
    List.Chain' (· ≤ ·) (linspace a b) := by
  unfold linspace
  rw [List.chain'_map, show (461 : ℕ) = 460 + 1 from rfl,
      List.chain'_range_succ]
  intro m _
  have hm : (m : ℚ) ≤ (m + 1 : ℕ) := by push_cast; linarith
  have hba : (0 : ℚ) ≤ b - a := sub_nonneg.mpr h
  have : (b - a) * (m : ℚ) / 460 ≤ (b - a) * ((m + 1 : ℕ) : ℚ) / 460 := by
    gcongr
  linarith

/-- When every per-segment read succeeds, the loop returns the per-segment
traces concatenated in order, and the command trace is the per-segment
blocks concatenated in order. -/
lemma runSegs_all_some (start_freq stop_freq : ℚ) (average_state : Bool)
    (average_count : ℤ) (readSeg : ℕ → Option (List ℚ)) (trace : ℕ → List ℚ)
    (hread : ∀ s, readSeg s = some (trace s)) :
    ∀ l : List ℕ,
      runSegs start_freq stop_freq average_state average_count readSeg l =
        (some ((l.map trace).flatten),
         (l.map (segCmds start_freq stop_freq average_state average_count)).flatten) := by
  intro l
  induction l with
  | nil => simp [runSegs]
  | cons s rest ih => simp [runSegs, hread s, ih]

/-- The success-path value of `get_data`: the stitched frequency axis and
the concatenated per-segment traces, with the command trace being the
per-segment blocks followed by the three restoration commands. -/
lemma get_data_success (span start_freq stop_freq : ℚ) (average_state : Bool)
    (average_count : ℤ) (readSeg : ℕ → Option (List ℚ)) (trace : ℕ → List ℚ)
    (hread : ∀ s, readSeg s = some (trace s)) :
    get_data span start_freq stop_freq average_state average_count readSeg =
      (some (wfm_x span start_freq stop_freq,
             ((List.range (num_segments span)).map trace).flatten),
       ((List.range (num_segments span)).map
          (segCmds start_freq stop_freq average_state average_count)).flatten ++
        [Cmd.setStart ((wfm_x span start_freq stop_freq).headD 0),
         Cmd.setStop ((wfm_x span start_freq stop_freq).getLastD 0),
         Cmd.contOn]) := by
  unfold get_data
  rw [runSegs_all_some start_freq stop_freq average_state average_count
      readSeg trace hread]

/-- The stitched frequency axis always has `num_segments * 461` points. -/
lemma wfm_x_length (span start_freq stop_freq : ℚ) :
    (wfm_x span start_freq stop_freq).length = num_segments span * 461 := by
  unfold wfm_x
  rw [List.length_flatten, List.map_map]
  have : ∀ seg ∈ List.range (num_segments span),
      (List.length ∘ fun seg => linspace (seg_start start_freq seg)
        (seg_stop start_freq stop_freq seg)) seg = (fun _ : ℕ => 461) seg := by
    intro seg _
    exact linspace_length _ _
  rw [List.map_congr_left this, List.map_const', List.sum_replicate,
      List.length_range, smul_eq_mul]

/-- The stitched frequency axis starts at the requested start frequency. -/
lemma wfm_x_head {span start_freq stop_freq : ℚ} (h : 0 < span) :
    (wfm_x span start_freq stop_freq).head? = some start_freq := by
  unfold wfm_x
  obtain ⟨n, hn⟩ : ∃ n, num_segments span = n + 1 :=
    ⟨num_segments span - 1, (Nat.succ_pred_eq_of_pos (num_segments_pos h)).symm⟩
  rw [hn, List.range_succ_eq_map, List.map_cons, List.flatten_cons,
      List.head?_append, linspace_head]
  have : seg_start start_freq 0 = start_freq := by
    unfold seg_start
    push_cast
    ring
  rw [this]
  rfl

/-- The stitched frequency axis ends at the last segment's stop. -/
lemma wfm_x_getLast {span start_freq stop_freq : ℚ} (h : 0 < span) :
    (wfm_x span start_freq stop_freq).getLast? =
      some (seg_stop start_freq stop_freq (num_segments span - 1)) := by
  unfold wfm_x
  obtain ⟨n, hn⟩ : ∃ n, num_segments span = n + 1 :=
    ⟨num_segments span - 1, (Nat.succ_pred_eq_of_pos (num_segments_pos h)).symm⟩
  rw [hn, List.range_succ, List.map_append, List.map_cons, List.map_nil,
      List.flatten_append, List.flatten_cons, List.flatten_nil,
      List.append_nil, List.getLast?_append, linspace_getLast]
  simp [hn]

/-- The stitched frequency axis is monotonically non-decreasing. -/
lemma wfm_x_chain' {span start_freq stop_freq : ℚ}
    (hlt : start_freq < stop_freq) (hspan : span = stop_freq - start_freq) :
    List.Chain' (· ≤ ·) (wfm_x span start_freq stop_freq) := by
  have h : 0 < span := by rw [hspan]; linarith
  unfold wfm_x
  have hnotnil : [] ∉ (List.range (num_segments span)).map
      (fun seg => linspace (seg_start start_freq seg)
        (seg_stop start_freq stop_freq seg)) := by
    intro hmem
    rw [List.mem_map] at hmem
    obtain ⟨i, _, hi⟩ := hmem
    exact linspace_ne_nil _ _ hi
  rw [List.chain'_flatten hnotnil]
  constructor
  · intro l hl
    rw [List.mem_map] at hl
    obtain ⟨i, hi, rfl⟩ := hl
    rw [List.mem_range] at hi
    exact linspace_chain' (seg_start_le_stop hspan h hi)
  · rw [List.chain'_map]
    rcases hn : num_segments span with _ | n
    · simp
    · rw [List.chain'_range_succ]
      intro m hm
      intro x hx y hy
      rw [linspace_getLast] at hx
      rw [linspace_head] at hy
      rw [Option.mem_def, Option.some_inj] at hx hy
      subst hx
      subst hy
      have : m + 1 < num_segments span := by rw [hn]; exact Nat.succ_lt_succ hm
      exact le_of_eq (seg_stop_eq_next_start hspan h this)

/-- A per-segment command block never enables continuous sweeping. -/
lemma segCmds_count_contOn (start_freq stop_freq : ℚ) (average_state : Bool)
    (average_count : ℤ) (seg : ℕ) :
    (segCmds start_freq stop_freq average_state average_count seg).count
      Cmd.contOn = 0 := by
  simp [segCmds]

/-- No concatenation of per-segment blocks enables continuous sweeping. -/
lemma flatten_segCmds_count_contOn (start_freq stop_freq : ℚ)
    (average_state : Bool) (average_count : ℤ) (l : List ℕ) :
    ((l.map (segCmds start_freq stop_freq average_state
      average_count)).flatten).count Cmd.contOn = 0 := by
  induction l with
  | nil => simp
  | cons s rest ih =>
      rw [List.map_cons, List.flatten_cons, List.count_append,
          segCmds_count_contOn, ih]

/-- Claim C1: for a request with `stop_freq > start_freq`, when every
per-segment trace read returns exactly 461 amplitude values, `get_data`
returns the amplitude lists appended segment by segment in segment order
(the same order as the stitched frequency axis), and the returned amplitude
sequence has exactly `num_segments * 461` entries. -/
theorem C1_amplitude_length (span start_freq stop_freq : ℚ)
    (average_state : Bool) (average_count : ℤ)
    (readSeg : ℕ → Option (List ℚ)) (trace : ℕ → List ℚ)
    (hlt : start_freq < stop_freq) (hspan : span = stop_freq - start_freq)
    (hread : ∀ s, readSeg s = some (trace s))
    (hlen : ∀ s, (trace s).length = 461) :
    ∃ cmds,
      get_data span start_freq stop_freq average_state average_count readSeg =
        (some (wfm_x span start_freq stop_freq,
               ((List.range (num_segments span)).map trace).flatten), cmds) ∧
      (((List.range (num_segments span)).map trace).flatten).length =
        num_segments span * 461 := by
  rw [get_data_success span start_freq stop_freq average_state average_count
      readSeg trace hread]
  refine ⟨_, rfl, ?_⟩
  rw [List.length_flatten, List.map_map]
  have : ∀ s ∈ List.range (num_segments span),
      (List.length ∘ trace) s = (fun _ : ℕ => 461) s := fun s _ => hlen s
  rw [List.map_congr_left this, List.map_const', List.sum_replicate,
      List.length_range, smul_eq_mul]

/-- Witness for C1 at a concrete request. -/
theorem C1_witness :
    ∃ cmds,
      get_data 1200000000 0 1200000000 true 10
          (fun _ => some (List.replicate 461 (0 : ℚ))) =
        (some (wfm_x 1200000000 0 1200000000,
               ((List.range (num_segments 1200000000)).map
                 (fun _ : ℕ => List.replicate 461 (0 : ℚ))).flatten), cmds) ∧
      (((List.range (num_segments 1200000000)).map
          (fun _ : ℕ => List.replicate 461 (0 : ℚ))).flatten).length =
        num_segments 1200000000 * 461 :=
  C1_amplitude_length 1200000000 0 1200000000 true 10 _ _
    (by norm_num) (by norm_num) (fun _ => rfl) (fun _ => List.length_replicate 461 0)

/-- Claim C5: on a fully successful acquisition, the commands issued for
each segment are exactly, in order: set segment start, set segment stop,
disable continuous sweep, trigger a single sweep and block on the
completion query, re-apply the caller's averaging enable state, re-apply
the caller's averaging count, restart the averaging accumulation, read the
amplitude trace — so averaging is restarted per segment with the caller's
settings. -/
theorem C5_per_segment_commands (span start_freq stop_freq : ℚ)
    (average_state : Bool) (average_count : ℤ)
    (readSeg : ℕ → Option (List ℚ)) (trace : ℕ → List ℚ)
    (hread : ∀ s, readSeg s = some (trace s)) :
    (get_data span start_freq stop_freq average_state average_count
        readSeg).2 =
      ((List.range (num_segments span)).map (fun seg =>
        [Cmd.setStart (seg_start start_freq seg),
         Cmd.setStop (seg_stop start_freq stop_freq seg),
         Cmd.contOff,
         Cmd.triggerWait,
         Cmd.setAvgState average_state,
         Cmd.setAvgCount average_count,
         Cmd.avgClear,
         Cmd.readTrace])).flatten ++
      [Cmd.setStart ((wfm_x span start_freq stop_freq).headD 0),
       Cmd.setStop ((wfm_x span start_freq stop_freq).getLastD 0),
       Cmd.contOn] := by
  rw [get_data_success span start_freq stop_freq average_state average_count
      readSeg trace hread]
  rfl

/-- Witness for C5 at a concrete request. -/
theorem C5_witness :
    (get_data 1200000000 0 1200000000 true 10
        (fun _ => some (List.replicate 461 (0 : ℚ)))).2 =
      ((List.range (num_segments 1200000000)).map (fun seg =>
        [Cmd.setStart (seg_start 0 seg),
         Cmd.setStop (seg_stop 0 1200000000 seg),
         Cmd.contOff,
         Cmd.triggerWait,
         Cmd.setAvgState true,
         Cmd.setAvgCount 10,
         Cmd.avgClear,
         Cmd.readTrace])).flatten ++
      [Cmd.setStart ((wfm_x 1200000000 0 1200000000).headD 0),
       Cmd.setStop ((wfm_x 1200000000 0 1200000000).getLastD 0),
       Cmd.contOn] :=
  C5_per_segment_commands 1200000000 0 1200000000 true 10 _
    (fun _ => List.replicate 461 (0 : ℚ)) (fun _ => rfl)

/-- Claim C2: for a request with `stop_freq > start_freq` (the instrument
span query returning `stop_freq - start_freq`), `get_data` uses
`num_segments = ceil(span / maxSegmentSpan)` segments whose windows are
contiguous (each non-final window stops where the next starts, the final
window stops at `stop_freq`) and whose union covers
`[start_freq, stop_freq]` with no gaps. -/
theorem C2_segmentation (span start_freq stop_freq : ℚ)
    (hlt : start_freq < stop_freq) (hspan : span = stop_freq - start_freq) :
    (num_segments span : ℤ) = ⌈span / maxSegmentSpan⌉ ∧
    (∀ i : ℕ, i + 1 < num_segments span →
      seg_stop start_freq stop_freq i = seg_start start_freq (i + 1)) ∧
    seg_stop start_freq stop_freq (num_segments span - 1) = stop_freq ∧
    (∀ x : ℚ, start_freq ≤ x → x ≤ stop_freq →
      ∃ i < num_segments span,
        seg_start start_freq i ≤ x ∧ x ≤ seg_stop start_freq stop_freq i) := by
  have h : 0 < span := by rw [hspan]; linarith
  refine ⟨?_, fun i hi => seg_stop_eq_next_start hspan h hi,
    seg_stop_last hspan h, ?_⟩
  · rw [num_segments_eq_ceil]
    exact Int.natCast_ceil_eq_ceil (le_of_lt (div_pos h maxSegmentSpan_pos))
  · intro x hxl hxu
    rcases eq_or_lt_of_le hxu with heq | hxlt
    · have hlast : num_segments span - 1 < num_segments span :=
        Nat.sub_lt (num_segments_pos h) Nat.one_pos
      refine ⟨num_segments span - 1, hlast, ?_, ?_⟩
      · rw [heq]
        exact le_of_lt (seg_start_lt_stop hspan h hlast)
      · rw [seg_stop_last hspan h, heq]
    · set q := (x - start_freq) / maxSegmentSpan with hq
      have hq0 : 0 ≤ q := div_nonneg (by linarith) (le_of_lt maxSegmentSpan_pos)
      refine ⟨⌊q⌋₊, ?_, ?_, ?_⟩
      · rw [Nat.floor_lt hq0]
        have h1 : q < span / maxSegmentSpan := by
          rw [hq, hspan]
          gcongr
          exact maxSegmentSpan_pos
        have h2 : span / maxSegmentSpan ≤ (num_segments span : ℚ) := by
          rw [num_segments_eq_ceil]
          exact Nat.le_ceil _
        linarith
      · rw [seg_start]
        have hfl : (⌊q⌋₊ : ℚ) ≤ q := Nat.floor_le hq0
        rw [hq] at hfl
        have := (le_div_iff₀ maxSegmentSpan_pos).mp hfl
        linarith
      · rw [seg_stop, seg_start]
        refine le_min ?_ (le_of_lt hxlt)
        have hfu : q < (⌊q⌋₊ : ℚ) + 1 := Nat.lt_floor_add_one q
        rw [hq] at hfu
        have := (div_lt_iff₀ maxSegmentSpan_pos).mp hfu
        linarith

/-- Witness for C2 at a concrete request. -/
theorem C2_witness :
    (num_segments 1200000000 : ℤ) = ⌈(1200000000 : ℚ) / maxSegmentSpan⌉ ∧
    (∀ i : ℕ, i + 1 < num_segments 1200000000 →
      seg_stop 0 1200000000 i = seg_start 0 (i + 1)) ∧
    seg_stop 0 1200000000 (num_segments 1200000000 - 1) = 1200000000 ∧
    (∀ x : ℚ, 0 ≤ x → x ≤ 1200000000 →
      ∃ i < num_segments 1200000000,
        seg_start 0 i ≤ x ∧ x ≤ seg_stop 0 1200000000 i) :=
  C2_segmentation 1200000000 0 1200000000 (by norm_num) (by norm_num)

/-- Claim C4: for a request with `stop_freq > start_freq`, the stitched
frequency axis is monotonically non-decreasing over its full length, and at
every internal segment boundary the last frequency sample of segment `i`
equals the first frequency sample of segment `i + 1` (an adjacent duplicate
point, since each 461-point segment axis includes both endpoints). -/
theorem C4_monotone_axis_duplicate_boundaries (span start_freq stop_freq : ℚ)
    (hlt : start_freq < stop_freq) (hspan : span = stop_freq - start_freq) :
    List.Chain' (· ≤ ·) (wfm_x span start_freq stop_freq) ∧
    ∀ i : ℕ, i + 1 < num_segments span →
      (linspace (seg_start start_freq i)
        (seg_stop start_freq stop_freq i)).getLast? =
      (linspace (seg_start start_freq (i + 1))
        (seg_stop start_freq stop_freq (i + 1))).head? := by
  have h : 0 < span := by rw [hspan]; linarith
  refine ⟨wfm_x_chain' hlt hspan, fun i hi => ?_⟩
  rw [linspace_getLast, linspace_head, seg_stop_eq_next_start hspan h hi]

/-- Witness for C4 at a concrete request. -/
theorem C4_witness :
    List.Chain' (· ≤ ·) (wfm_x 1200000000 0 1200000000) ∧
    ∀ i : ℕ, i + 1 < num_segments 1200000000 →
      (linspace (seg_start 0 i) (seg_stop 0 1200000000 i)).getLast? =
      (linspace (seg_start 0 (i + 1))
        (seg_stop 0 1200000000 (i + 1))).head? :=
  C4_monotone_axis_duplicate_boundaries 1200000000 0 1200000000
    (by norm_num) (by norm_num)

/-- Claim C6: for a request with `0 < span ≤ maxSegmentSpan` there is a
single segment and the stitched frequency axis is one 461-point linear
interpolation from `start_freq` to `stop_freq` inclusive. -/
theorem C6_single_segment (span start_freq stop_freq : ℚ)
    (hlt : start_freq < stop_freq) (hspan : span = stop_freq - start_freq)
    (hle : span ≤ maxSegmentSpan) :
    num_segments span = 1 ∧
    wfm_x span start_freq stop_freq = linspace start_freq stop_freq := by
  have h : 0 < span := by rw [hspan]; linarith
  have hn : num_segments span = 1 := by
    rw [num_segments_eq_ceil, Nat.ceil_eq_iff one_ne_zero]
    constructor
    · push_cast
      exact div_pos h maxSegmentSpan_pos
    · rw [Nat.cast_one, div_le_one maxSegmentSpan_pos]
      exact hle
  refine ⟨hn, ?_⟩
  unfold wfm_x
  rw [hn, show List.range 1 = [0] from rfl, List.map_cons, List.map_nil,
      List.flatten_cons, List.flatten_nil, List.append_nil]
  have e1 : seg_start start_freq 0 = start_freq := by
    unfold seg_start
    push_cast
    ring
  have e2 : seg_stop start_freq stop_freq 0 = stop_freq := by
    unfold seg_stop
    rw [e1, min_eq_right (by linarith)]
  rw [e1, e2]

/-- Witness for C6 at the degenerate near-zero-span request. -/
theorem C6_witness :
    num_segments 1 = 1 ∧
    wfm_x 1 1000000000 1000000001 = linspace 1000000000 1000000001 :=
  C6_single_segment 1 1000000000 1000000001 (by norm_num) (by norm_num)
    (by norm_num [maxSegmentSpan])

/-- Claim C8: for `start_freq = 0`, `stop_freq = 1.2e9` (span 1.2e9),
`get_data` uses 3 segments with windows `[0, 5e8]`, `[5e8, 1e9]`,
`[1e9, 1.2e9]`, and (with 461-point segment reads) returns a stitched trace
of exactly `3 * 461 = 1383` frequency samples and 1383 amplitude samples. -/
theorem C8_concrete_case :
    num_segments 1200000000 = 3 ∧
    seg_start 0 0 = 0 ∧ seg_stop 0 1200000000 0 = 500000000 ∧
    seg_start 0 1 = 500000000 ∧ seg_stop 0 1200000000 1 = 1000000000 ∧
    seg_start 0 2 = 1000000000 ∧ seg_stop 0 1200000000 2 = 1200000000 ∧
    (wfm_x 1200000000 0 1200000000).length = 1383 ∧
    ∃ freqs amps cmds,
      get_data 1200000000 0 1200000000 true 10
          (fun _ => some (List.replicate 461 (0 : ℚ))) =
        (some (freqs, amps), cmds) ∧
      freqs.length = 1383 ∧ amps.length = 1383 := by
  have hn : num_segments 1200000000 = 3 := by with_unfolding_all decide
  have hw : ∀ s : ℕ,
      (List.length ∘ fun _ : ℕ => List.replicate 461 (0 : ℚ)) s
        = (fun _ : ℕ => 461) s := by
    intro s
    exact List.length_replicate 461 (0 : ℚ)
  refine ⟨hn,
    by norm_num [seg_start, maxSegmentSpan],
    by norm_num [seg_stop, seg_start, maxSegmentSpan, min_def],
    by norm_num [seg_start, maxSegmentSpan],
    by norm_num [seg_stop, seg_start, maxSegmentSpan, min_def],
    by norm_num [seg_start, maxSegmentSpan],
    by norm_num [seg_stop, seg_start, maxSegmentSpan, min_def], ?_, ?_⟩
  · rw [wfm_x_length, hn]
  · refine ⟨_, _, _,
      get_data_success 1200000000 0 1200000000 true 10 _
        (fun _ => List.replicate 461 (0 : ℚ)) (fun _ => rfl), ?_, ?_⟩
    · rw [wfm_x_length, hn]
    · rw [List.length_flatten, List.map_map,
          List.map_congr_left (fun s _ => hw s), List.map_const',
          List.sum_replicate, List.length_range, smul_eq_mul, hn]

/-- Claim C3 fails on the code: when a segment read fails partway, the
exception propagates before the restoration commands are issued, so the
continuous-sweep enable command is observed zero times, not once.  Here the
very first segment read of a 3-segment acquisition fails. -/
theorem C3_counterexample :
    (get_data 1200000000 0 1200000000 true 10 (fun _ => none)).1 = none ∧
    ((get_data 1200000000 0 1200000000 true 10
      (fun _ => none)).2).count Cmd.contOn = 0 := by
  constructor
  · with_unfolding_all decide
  · with_unfolding_all decide

/-- Claim C3 (amended): on a *successful* acquisition, `get_data` ends the
command trace by restoring the frequency window to the first and last
samples of the stitched axis (the first being `start_freq`) and re-enabling
continuous sweep, with the enable command observed exactly once; on a
failed acquisition no enable command is issued (see the counterexample). -/
theorem C3_restoration_on_success (span start_freq stop_freq : ℚ)
    (average_state : Bool) (average_count : ℤ)
    (readSeg : ℕ → Option (List ℚ)) (trace : ℕ → List ℚ)
    (hlt : start_freq < stop_freq) (hspan : span = stop_freq - start_freq)
    (hread : ∀ s, readSeg s = some (trace s)) :
    (wfm_x span start_freq stop_freq).headD 0 = start_freq ∧
    ∃ pre,
      (get_data span start_freq stop_freq average_state average_count
          readSeg).2 =
        pre ++ [Cmd.setStart ((wfm_x span start_freq stop_freq).headD 0),
                Cmd.setStop ((wfm_x span start_freq stop_freq).getLastD 0),
                Cmd.contOn] ∧
      ((get_data span start_freq stop_freq average_state average_count
          readSeg).2).count Cmd.contOn = 1 := by
  have h : 0 < span := by rw [hspan]; linarith
  constructor
  · rw [List.headD_eq_head?, wfm_x_head h]
    rfl
  · rw [get_data_success span start_freq stop_freq average_state
        average_count readSeg trace hread]
    refine ⟨_, rfl, ?_⟩
    rw [List.count_append, flatten_segCmds_count_contOn]
    rfl

/-- Witness for the amended C3 at a concrete request. -/
theorem C3_witness :
    (wfm_x 1200000000 0 1200000000).headD 0 = 0 ∧
    ∃ pre,
      (get_data 1200000000 0 1200000000 true 10
          (fun _ => some (List.replicate 461 (0 : ℚ)))).2 =
        pre ++ [Cmd.setStart ((wfm_x 1200000000 0 1200000000).headD 0),
                Cmd.setStop ((wfm_x 1200000000 0 1200000000).getLastD 0),
                Cmd.contOn] ∧
      ((get_data 1200000000 0 1200000000 true 10
          (fun _ => some (List.replicate 461 (0 : ℚ)))).2).count
        Cmd.contOn = 1 :=
  C3_restoration_on_success 1200000000 0 1200000000 true 10 _
    (fun _ => List.replicate 461 (0 : ℚ)) (by norm_num) (by norm_num)
    (fun _ => rfl)

/-- Whatever the reads do, the first command of a non-empty segment loop is
the first segment's window-start command. -/
lemma runSegs_cmds_head (start_freq stop_freq : ℚ) (average_state : Bool)
    (average_count : ℤ) (readSeg : ℕ → Option (List ℚ)) (s : ℕ) (l : List ℕ) :
    ((runSegs start_freq stop_freq average_state average_count readSeg
      (s :: l)).2).head? = some (Cmd.setStart (seg_start start_freq s)) := by
  rcases hr : readSeg s with _ | d <;> simp [runSegs, hr, segCmds]

/-- The command trace of `get_data` extends the loop's command trace. -/
lemma get_data_cmds_eq_runSegs_append (span start_freq stop_freq : ℚ)
    (average_state : Bool) (average_count : ℤ)
    (readSeg : ℕ → Option (List ℚ)) :
    ∃ rest : List Cmd,
      (get_data span start_freq stop_freq average_state average_count
        readSeg).2 =
      (runSegs start_freq stop_freq average_state average_count readSeg
        (List.range (num_segments span))).2 ++ rest := by
  unfold get_data
  rcases hr : runSegs start_freq stop_freq average_state average_count readSeg
      (List.range (num_segments span)) with ⟨res, cmds⟩
  rcases res with _ | d
  · exact ⟨[], by simp [hr]⟩
  · exact ⟨[Cmd.setStart ((wfm_x span start_freq stop_freq).headD 0),
            Cmd.setStop ((wfm_x span start_freq stop_freq).getLastD 0),
            Cmd.contOn], by simp [hr]⟩

/-- With a positive span, the first command `get_data` issues is always the
first segment's window-start command, regardless of the request's validity
and of how the reads behave. -/
lemma get_data_cmds_head (span start_freq stop_freq : ℚ)
    (average_state : Bool) (average_count : ℤ)
    (readSeg : ℕ → Option (List ℚ)) (h : 0 < span) :
    ((get_data span start_freq stop_freq average_state average_count
      readSeg).2).head? = some (Cmd.setStart start_freq) := by
  obtain ⟨m, hm⟩ : ∃ m, num_segments span = m + 1 :=
    ⟨num_segments span - 1, (Nat.succ_pred_eq_of_pos (num_segments_pos h)).symm⟩
  obtain ⟨rest, hrest⟩ := get_data_cmds_eq_runSegs_append span start_freq
    stop_freq average_state average_count readSeg
  rw [hrest, hm, List.range_succ_eq_map, List.head?_append,
      runSegs_cmds_head]
  have : seg_start start_freq 0 = start_freq := by
    unfold seg_start
    push_cast
    ring
  rw [this]
  rfl

/-- Claim C7 (amended): `get_data` performs no validation at all: for every
request with a positive span — whether or not it is within the instrument's
capability — the very first command issued is the first segment's window
command, so the call never fails before segment commands are sent. -/
theorem C7_no_validation (span start_freq stop_freq : ℚ)
    (average_state : Bool) (average_count : ℤ)
    (readSeg : ℕ → Option (List ℚ))
    (hlt : start_freq < stop_freq) (hspan : span = stop_freq - start_freq) :
    ((get_data span start_freq stop_freq average_state average_count
      readSeg).2).head? = some (Cmd.setStart start_freq) :=
  get_data_cmds_head span start_freq stop_freq average_state average_count
    readSeg (by rw [hspan]; linarith)

/-- Witness for the amended C7 at a concrete request. -/
theorem C7_witness :
    ((get_data 1200000000 0 1200000000 true 10
      (fun _ => some (List.replicate 461 (0 : ℚ)))).2).head? =
        some (Cmd.setStart 0) :=
  C7_no_validation 1200000000 0 1200000000 true 10 _
    (by norm_num) (by norm_num)

/-- Claim C7 fails on the code: a request whose frequencies are outside the
instrument's capability (start frequency −1 GHz; the N9323C starts at
9 kHz) is not rejected: segment commands are issued immediately — the first
command is the segment window start at −1 GHz — and the call completes
without failing. -/
theorem C7_counterexample :
    ((get_data 1000000000 (-1000000000) 0 false 1
      (fun _ => some (List.replicate 461 (0 : ℚ)))).2).head? =
        some (Cmd.setStart (-1000000000)) ∧
    (get_data 1000000000 (-1000000000) 0 false 1
      (fun _ => some (List.replicate 461 (0 : ℚ)))).1 ≠ none := by
  constructor
  · exact get_data_cmds_head 1000000000 (-1000000000) 0 false 1 _
      (by norm_num)
  · rw [get_data_success 1000000000 (-1000000000) 0 false 1 _
      (fun _ => List.replicate 461 (0 : ℚ)) (fun _ => rfl)]
    exact Option.some_ne_none _

/-- Claim C9: reading `SweepPoints` returns the constant 461 and issues no
instrument command; every attempt to set `SweepPoints` raises
`NotImplementedError` and issues no command (so the instrument state is
unchanged). -/
theorem C9_sweep_points_fixed :
    SweepPoints_get = (461, []) ∧
    ∀ v : ℤ, SweepPoints_set v =
      Except.error "Sweep points is fixed to 461 in this model." :=
  ⟨rfl, fun _ => rfl⟩

/-- Claim C10: for every positive ramp rate `r`, setting `RampRateVoltage`
(respectively `RampRateCurrent`) and reading it back returns exactly `r`:
the setter picks a step from 0.001 / 0.010 / 0.100 / 1.0 by thresholding
`r` and sets `inter_delay = step / r`, and the getter divides them back,
the identity in exact arithmetic. -/
theorem C10_ramp_rate_roundtrip (ch : SiglentChannel) (r : ℚ) (hr : 0 < r) :
    RampRateVoltage_get (RampRateVoltage_set ch r) = r ∧
    RampRateCurrent_get (RampRateCurrent_set ch r) = r := by
  have key : ∀ s : ℚ, s ≠ 0 → s / (s / r) = r := by
    intro s hs
    rw [div_div_eq_mul_div, mul_div_cancel_left₀ _ hs]
  constructor
  · show (if r < 1/100 then (1/1000 : ℚ)
        else if r < 1/10 then 1/100 else if r < 1 then 1/10 else 1) /
      ((if r < 1/100 then (1/1000 : ℚ)
        else if r < 1/10 then 1/100 else if r < 1 then 1/10 else 1) / r) = r
    split_ifs <;> [skip; skip; skip; skip] <;> exact key _ (by norm_num)
  · show (if r < 1/100 then (1/1000 : ℚ)
        else if r < 1/10 then 1/100 else if r < 1 then 1/10 else 1) /
      ((if r < 1/100 then (1/1000 : ℚ)
        else if r < 1/10 then 1/100 else if r < 1 then 1/10 else 1) / r) = r
    split_ifs <;> [skip; skip; skip; skip] <;> exact key _ (by norm_num)

/-- Witness for C10 at the concrete rate 1/2. -/
theorem C10_witness :
    RampRateVoltage_get (RampRateVoltage_set ⟨⟨0, 0⟩, ⟨0, 0⟩⟩ (1/2)) = 1/2 ∧
    RampRateCurrent_get (RampRateCurrent_set ⟨⟨0, 0⟩, ⟨0, 0⟩⟩ (1/2)) = 1/2 :=
  C10_ramp_rate_roundtrip ⟨⟨0, 0⟩, ⟨0, 0⟩⟩ (1/2) (by norm_num)
